import Mathlib

/-!
Verification of the export pipeline of the spine-thing repository.

The definitions below are a shallow embedding of the export-related code in
src/src/hooks/use-pixi-spine.tsx.  JS numbers are modelled as rationals; the
few places where a non-finite JS value (NaN / Infinity) can arise are modelled
explicitly with the JSNum type.  Stateful code is modelled by explicit state
passing over a SkelState record holding exactly the skeleton fields the export
code reads and writes (scale, position, track presence, track time, time
scale, animation start/end).
-/

namespace SpineThing

/-- JS Math.round: rounds half toward positive infinity. -/
def jsRound (q : ℚ) : ℤ := ⌊q + 1/2⌋

/-- JS test (q % 2 === 0) on an arbitrary (possibly fractional) number:
true exactly when q is an even integer multiple of 1, i.e. q = 2k, k an
integer.  The JS remainder has the sign of the dividend, but the
equality-to-zero test agrees with this characterisation for every sign. -/
def jsEven (q : ℚ) : Bool := decide (q - 2 * ((⌊q / 2⌋ : ℤ) : ℚ) = 0)

/-- A JS number that may be non-finite.  Only the cases the embedded code can
actually produce are needed: NaN, the two infinities, and finite values. -/
inductive JSNum where
  | nan
  | inf
  | ninf
  | fin (q : ℚ)
deriving DecidableEq, Repr

/-- JS division a / b on finite operands: 0/0 is NaN, a/0 for a ≠ 0 is a
signed infinity, otherwise the exact quotient. -/
def jsDiv (a b : ℚ) : JSNum :=
  if b = 0 then (if a = 0 then .nan else if 0 < a then .inf else .ninf)
  else .fin (a / b)

/-- JS multiplication of a possibly non-finite number by a finite one. -/
def JSNum.mulQ : JSNum → ℚ → JSNum
  | .nan, _ => .nan
  | .inf, q => if q = 0 then .nan else if 0 < q then .inf else .ninf
  | .ninf, q => if q = 0 then .nan else if 0 < q then .ninf else .inf
  | .fin a, q => .fin (a * q)

/-- MAX_GIF_HEIGHT constant (use-pixi-spine.tsx line 25). -/
def MAX_GIF_HEIGHT : ℚ := 1000

/-- calculateExportDimensions (use-pixi-spine.tsx lines 123-139).
Given the source bounds and an optional requested height, computes the output
width/height.  The JS guard (!targetHeight) is true both for an absent
argument and for 0, so both return the source dimensions unchanged.
Otherwise the height is capped at MAX_GIF_HEIGHT, the width is rounded from
the aspect ratio, and when the source width is an even number and the rounded
width is odd, the width is nudged: by -1 when |width - 1| < 2, else by +1. -/
def calculateExportDimensions (originalWidth originalHeight : ℚ)
    (targetHeight : Option ℚ) : ℚ × ℚ :=
  match targetHeight with
  | none => (originalWidth, originalHeight)
  | some t =>
    if t = 0 then (originalWidth, originalHeight)
    else
      let aspectRatio := originalWidth / originalHeight
      let height := min t MAX_GIF_HEIGHT
      let width0 : ℤ := jsRound (height * aspectRatio)
      let width : ℤ :=
        if jsEven originalWidth = true ∧ width0 % 2 ≠ 0 then
          if |width0 - 1| < 2 then width0 - 1 else width0 + 1
        else width0
      ((width : ℚ), height)

/-! ## GIF export frame plan (exportToGif, lines 836-970) -/

/-- Skeleton-local bounds record {x, y, width, height}. -/
structure Bounds where
  x : ℚ
  y : ℚ
  width : ℚ
  height : ℚ
deriving DecidableEq, Repr

/-- Track time assigned to GIF frame i (line 900):
time = (i / (totalFrames - 1)) * duration, with JS division semantics.
When totalFrames = 1 the only iteration computes 0 / 0 = NaN. -/
def gifFrameTime (totalFrames : ℤ) (i : ℕ) (duration : ℚ) : JSNum :=
  (jsDiv (i : ℚ) ((totalFrames : ℚ) - 1)).mulQ duration

/-- Per-frame rendering parameters of one GIF frame: the track time it is
sampled at, and the scale and position applied to the skeleton (lines
900-909). -/
structure GifFrame where
  time : JSNum
  scaleX : ℚ
  scaleY : ℚ
  posX : ℚ
  posY : ℚ
deriving DecidableEq, Repr

/-- The encoder-relevant outcome of exportToGif's preparation and frame
loop. -/
structure GifExportPlan where
  totalFrames : ℤ
  repeatCount : ℤ
  delay : ℚ
  scale : ℚ
  frames : List GifFrame
deriving Repr

/-- exportToGif's frame plan (lines 844-939): FPS = 20,
totalFrames = ceil(duration * FPS), dimensions from
calculateExportDimensions on the sampled max bounds, scale and padding
computed once before the loop (paddingFactor = 0.05), encoder configured
with setRepeat(0) and setDelay(1000 / FPS), and for i in
[0, totalFrames) one frame at gifFrameTime with the loop-invariant scale
and position. -/
def gifExportPlan (maxBounds : Bounds) (targetHeight : Option ℚ)
    (duration : ℚ) : GifExportPlan :=
  let FPS : ℚ := 20
  let totalFrames : ℤ := ⌈duration * FPS⌉
  let dims := calculateExportDimensions maxBounds.width maxBounds.height targetHeight
  let width := dims.1
  let height := dims.2
  let scale := height / maxBounds.height
  let paddingFactor : ℚ := 1/20
  let paddedWidth : ℤ := ⌈width * (1 + paddingFactor)⌉
  let paddedHeight : ℤ := ⌈height * (1 + paddingFactor)⌉
  let paddingX : ℤ := ⌊((paddedWidth : ℚ) - width) / 2⌋
  let paddingY : ℤ := ⌊((paddedHeight : ℚ) - height) / 2⌋
  { totalFrames := totalFrames
    repeatCount := 0
    delay := 1000 / FPS
    scale := scale
    frames := (List.range totalFrames.toNat).map fun i =>
      { time := gifFrameTime totalFrames i duration
        scaleX := scale
        scaleY := scale
        posX := -maxBounds.x * scale + (paddingX : ℚ)
        posY := -maxBounds.y * scale + (paddingY : ℚ) } }

/-! ## Skeleton state and the export session guard
(withExportSetup, lines 242-286) -/

/-- The skeleton fields the export code reads and writes: 2D scale and
position, presence of the active track entry state.tracks[0], its trackTime
and animationStart/animationEnd, and state.timeScale. -/
structure SkelState where
  scaleX : ℚ
  scaleY : ℚ
  posX : ℚ
  posY : ℚ
  hasTrack : Bool
  trackTime : ℚ
  timeScale : ℚ
  animStart : ℚ
  animEnd : ℚ
deriving DecidableEq, Repr

/-- Result of running an export callback: the skeleton state it leaves
behind, and whether it threw (or returned a rejected promise). -/
structure CbResult where
  skel : SkelState
  throws : Bool

/-- The hook state around the skeleton: the animationStateRef isPaused flag
and the isExporting React state. -/
structure AppState where
  skel : SkelState
  isPaused : Bool
  isExporting : Bool
deriving DecidableEq, Repr

/-- The skeleton state the callback receives after the guard's entry code
(lines 267-268): isExporting is set and, when not already paused, the time
scale is frozen to 0. -/
def exportEntrySkel (s : AppState) : SkelState :=
  if s.isPaused then s.skel else { s.skel with timeScale := 0 }

/-- withExportSetup (lines 242-286): snapshots scale, position and
tracks[0]?.trackTime ?? 0, sets isExporting, freezes timeScale to 0 unless
already paused, runs the callback, and on every exit path (normal return,
throw, rejected promise) runs cleanup: copy back the snapshotted scale and
position, restore trackTime when tracks[0] still exists, set timeScale to 1
when not previously paused, and clear isExporting.  The callback's
thrown/rejected error is propagated to the caller (second component). -/
def withExportSetup (cb : SkelState → CbResult) (s : AppState) :
    AppState × Bool :=
  let wasPaused := s.isPaused
  let originalScaleX := s.skel.scaleX
  let originalScaleY := s.skel.scaleY
  let originalPosX := s.skel.posX
  let originalPosY := s.skel.posY
  let originalTime := if s.skel.hasTrack then s.skel.trackTime else 0
  let r := cb (exportEntrySkel s)
  let restored1 : SkelState :=
    { r.skel with
      scaleX := originalScaleX
      scaleY := originalScaleY
      posX := originalPosX
      posY := originalPosY }
  let restored2 :=
    if restored1.hasTrack then { restored1 with trackTime := originalTime }
    else restored1
  let restored3 :=
    if wasPaused then restored2 else { restored2 with timeScale := 1 }
  ({ skel := restored3, isPaused := wasPaused, isExporting := false }, r.throws)

/-! ## The three export entry points' error policy
(takeScreenshot lines 529-583, exportToVideo lines 588-831,
exportToGif lines 836-970) -/

/-- The sampling/encoding work an export performs inside the guard: its net
effect on the skeleton state and whether it raises an exception. -/
structure ExportBody where
  effect : SkelState → SkelState
  throws : Bool

/-- takeScreenshot's callback (lines 534-575): the body runs inside
try/catch whose catch only logs (console.error, lines 571-573), so the
callback never rethrows — the returned promise resolves either way. -/
def screenshotCallback (b : ExportBody) : SkelState → CbResult :=
  fun sk => { skel := b.effect sk, throws := false }

/-- exportToVideo's callback (lines 596-823): the body runs inside
try/catch/finally whose catch only logs (lines 798-799), so the callback
never rethrows — the returned promise resolves either way. -/
def videoCallback (b : ExportBody) : SkelState → CbResult :=
  fun sk => { skel := b.effect sk, throws := false }

/-- exportToGif's callback (lines 841-962): the catch logs and rethrows a
fresh error (lines 954-956), so a throwing body makes the callback throw. -/
def gifCallback (b : ExportBody) : SkelState → CbResult :=
  fun sk => { skel := b.effect sk, throws := b.throws }

/-- takeScreenshot as observed by its caller: runs its callback under the
guard; returns the final app state and whether the caller sees a failure. -/
def takeScreenshot (b : ExportBody) (s : AppState) : AppState × Bool :=
  withExportSetup (screenshotCallback b) s

/-- exportToVideo as observed by its caller: no-ops without an active track
(line 591), else runs its callback under the guard. -/
def exportToVideo (b : ExportBody) (s : AppState) : AppState × Bool :=
  if s.skel.hasTrack = false then (s, false)
  else withExportSetup (videoCallback b) s

/-- exportToGif as observed by its caller: no-ops without an active track
(line 839), else runs its callback under the guard. -/
def exportToGif (b : ExportBody) (s : AppState) : AppState × Bool :=
  if s.skel.hasTrack = false then (s, false)
  else withExportSetup (gifCallback b) s

/-! ## Bounds sampler (calculateMaxAnimationBounds, lines 292-355) -/

/-- Number of animation points sampled beyond the first:
Math.min(Math.max(Math.ceil(duration * 10), 10), 30) (line 314). -/
def framesToSample (duration : ℚ) : ℤ := min (max ⌈duration * 10⌉ 10) 30

/-- The track times visited by the sampling loop (lines 322-323):
i runs from 0 to framesToSample inclusive, time = (i / framesToSample) *
duration. -/
def sampleTimes (duration : ℚ) : List ℚ :=
  (List.range ((framesToSample duration).toNat + 1)).map
    fun (i : ℕ) => ((i : ℚ) / ((framesToSample duration) : ℚ)) * duration

/-- Running accumulator of the sampling loop: minX and minY start at
Infinity, maxRight and maxBottom at -Infinity (lines 316-319), modelled with
WithTop / WithBot. -/
structure BoundsAcc where
  minX : WithTop ℚ
  minY : WithTop ℚ
  maxRight : WithBot ℚ
  maxBottom : WithBot ℚ

/-- One iteration of the sampling loop (lines 327-337): read the pose's
local bounds and fold them into the running min/max. -/
def boundsStep (acc : BoundsAcc) (b : Bounds) : BoundsAcc :=
  { minX := min acc.minX (b.x : WithTop ℚ)
    minY := min acc.minY (b.y : WithTop ℚ)
    maxRight := max acc.maxRight ((b.x + b.width : ℚ) : WithBot ℚ)
    maxBottom := max acc.maxBottom ((b.y + b.height : ℚ) : WithBot ℚ) }

/-- calculateMaxAnimationBounds (lines 292-355).  Without an active track it
returns originalDimensions.current, the bounds snapshot stored when the
animation was initialized (line 412), leaving the skeleton untouched.  With
a track it temporarily resets scale/position, walks sampleTimes reading the
pose's local bounds through the localBoundsAt oracle, restores the stored
trackTime/scale/position (lines 349-352: the returned state equals the input
state), and returns the accumulated union bounds. -/
def calculateMaxAnimationBounds (originalDimensions : Bounds) (s : SkelState)
    (localBoundsAt : ℚ → Bounds) : SkelState × Bounds :=
  if s.hasTrack = false then (s, originalDimensions)
  else
    let duration := s.animEnd - s.animStart
    let samples := (sampleTimes duration).map localBoundsAt
    let acc := samples.foldl boundsStep ⟨⊤, ⊤, ⊥, ⊥⟩
    let minX := acc.minX.untop' 0
    let minY := acc.minY.untop' 0
    let maxRight := acc.maxRight.unbot' 0
    let maxBottom := acc.maxBottom.unbot' 0
    (s, { x := minX, y := minY
          width := maxRight - minX, height := maxBottom - minY })

/-! ## Chroma/Alpha post-processing of GIF frames -/

/-- One RGBA pixel, each channel a number in [0, 255]. -/
structure Pixel where
  r : ℚ
  g : ℚ
  b : ℚ
  a : ℚ
deriving DecidableEq, Repr

/-- All four channels within the 8-bit range. -/
def Pixel.inRange (p : Pixel) : Prop :=
  0 ≤ p.r ∧ p.r ≤ 255 ∧ 0 ≤ p.g ∧ p.g ≤ 255 ∧
  0 ≤ p.b ∧ p.b ≤ 255 ∧ 0 ≤ p.a ∧ p.a ≤ 255

instance (p : Pixel) : Decidable p.inRange := by
  unfold Pixel.inRange; infer_instance

/-- Rec.601 luma of a pixel. -/
def luminance (p : Pixel) : ℚ := (299 * p.r + 587 * p.g + 114 * p.b) / 1000

/-- Modelled from the spec: the per-pixel Chroma/Alpha Post-Processor of
spec section 4.5.  The repository itself contains no per-pixel chroma
processing — the GIF path delegates it to the external gif-encoder-2
library, of which only the type declaration (src/src/types/gif-encoder-2.d.ts,
setTransparent) and the call site (use-pixi-spine.tsx lines 890-896) are in
the repository — so the rule set is modelled from the spec's words:
a pure chroma-key pixel (r < 50, g > 240, b < 50) gets alpha forced to 0;
else a green-dominant opaque-ish pixel (g > 1.5r, g > 1.5b, a > 0) is
near-black-preserved (green clamped to max(r, b)) when luminance < 40 and
r, b < 30, and otherwise its green is damped toward 1.2 times the red/blue
average; a semi-transparent pixel whose green exceeds the red/blue average
gets the same damping.  Alpha is modified only in the first branch. -/
def chromaAlphaProcess (p : Pixel) : Pixel :=
  if p.r < 50 ∧ p.g > 240 ∧ p.b < 50 then
    { p with a := 0 }
  else if p.g > (3/2) * p.r ∧ p.g > (3/2) * p.b ∧ p.a > 0 then
    if luminance p < 40 ∧ p.r < 30 ∧ p.b < 30 then
      { p with g := max p.r p.b }
    else
      { p with g := min p.g ((p.r + p.b) / 2 * (6/5)) }
  else if 0 < p.a ∧ p.a < 255 ∧ p.g > (p.r + p.b) / 2 then
    { p with g := min p.g ((p.r + p.b) / 2 * (6/5)) }
  else p

/-! ## Helper lemmas -/

theorem foldl_min_le_init {α : Type*} [LinearOrder α] (l : List α) (a : α) :
    l.foldl min a ≤ a := by
  induction l generalizing a with
  | nil => simp
  | cons h t ih => exact le_trans (ih (min a h)) (min_le_left a h)

theorem foldl_min_le_mem {α : Type*} [LinearOrder α] {l : List α} {b : α}
    (hb : b ∈ l) (a : α) : l.foldl min a ≤ b := by
  induction l generalizing a with
  | nil => cases hb
  | cons h t ih =>
    rcases List.mem_cons.1 hb with rfl | hb'
    · exact le_trans (foldl_min_le_init t (min a b)) (min_le_right a b)
    · exact ih hb' (min a h)

theorem init_le_foldl_max {α : Type*} [LinearOrder α] (l : List α) (a : α) :
    a ≤ l.foldl max a := by
  induction l generalizing a with
  | nil => simp
  | cons h t ih => exact le_trans (le_max_left a h) (ih (max a h))

theorem mem_le_foldl_max {α : Type*} [LinearOrder α] {l : List α} {b : α}
    (hb : b ∈ l) (a : α) : b ≤ l.foldl max a := by
  induction l generalizing a with
  | nil => cases hb
  | cons h t ih =>
    rcases List.mem_cons.1 hb with rfl | hb'
    · exact le_trans (le_max_right a b) (init_le_foldl_max t (max a b))
    · exact ih hb' (max a h)

theorem foldl_boundsStep_minX (l : List Bounds) (acc : BoundsAcc) :
    (l.foldl boundsStep acc).minX
      = (l.map fun b => ((b.x : WithTop ℚ))).foldl min acc.minX := by
  induction l generalizing acc with
  | nil => rfl
  | cons h t ih => simp [boundsStep, ih]

theorem foldl_boundsStep_maxRight (l : List Bounds) (acc : BoundsAcc) :
    (l.foldl boundsStep acc).maxRight
      = (l.map fun b => (((b.x + b.width : ℚ) : WithBot ℚ))).foldl max acc.maxRight := by
  induction l generalizing acc with
  | nil => rfl
  | cons h t ih => simp [boundsStep, ih]

theorem foldl_boundsStep_minY (l : List Bounds) (acc : BoundsAcc) :
    (l.foldl boundsStep acc).minY
      = (l.map fun b => ((b.y : WithTop ℚ))).foldl min acc.minY := by
  induction l generalizing acc with
  | nil => rfl
  | cons h t ih => simp [boundsStep, ih]

theorem foldl_boundsStep_maxBottom (l : List Bounds) (acc : BoundsAcc) :
    (l.foldl boundsStep acc).maxBottom
      = (l.map fun b => (((b.y + b.height : ℚ) : WithBot ℚ))).foldl max acc.maxBottom := by
  induction l generalizing acc with
  | nil => rfl
  | cons h t ih => simp [boundsStep, ih]

/-! ## C10: a requested height of 0 is treated like an absent request -/

/-- C10: the dimension planner treats targetHeight = 0 exactly like an
absent request: for every sourceWidth and sourceHeight it returns the
source dimensions unchanged, with no cap, rounding, or parity adjustment
and no error. -/
theorem calculateExportDimensions_zero_height (sw sh : ℚ) :
    calculateExportDimensions sw sh (some 0) = (sw, sh) ∧
    calculateExportDimensions sw sh none = (sw, sh) := by
  exact ⟨by simp [calculateExportDimensions], rfl⟩

/-! ## C3: GIF frame count, loop-invariant scale/offset, infinite looping -/

/-- C3: for a GIF export of an animation of duration d > 0, the number of
encoded frames equals ceil(d * 20), the encoder repeat count is 0
(infinite looping), every frame carries the identical scale (the one
computed once before the loop) and all frames share one offset. -/
theorem gifExportPlan_spec (maxBounds : Bounds) (th : Option ℚ) (d : ℚ)
    (hd : 0 < d) :
    (((gifExportPlan maxBounds th d).frames.length : ℤ) = ⌈d * 20⌉) ∧
    (gifExportPlan maxBounds th d).repeatCount = 0 ∧
    (∀ fr ∈ (gifExportPlan maxBounds th d).frames,
      fr.scaleX = (gifExportPlan maxBounds th d).scale ∧
      fr.scaleY = (gifExportPlan maxBounds th d).scale) ∧
    (∀ fr ∈ (gifExportPlan maxBounds th d).frames,
      ∀ fr' ∈ (gifExportPlan maxBounds th d).frames,
        fr.posX = fr'.posX ∧ fr.posY = fr'.posY) := by
  refine ⟨?_, rfl, ?_, ?_⟩
  · have h20 : (0:ℚ) ≤ d * 20 := by positivity
    simp only [gifExportPlan, List.length_map, List.length_range]
    exact Int.toNat_of_nonneg (Int.ceil_nonneg h20)
  · intro fr hfr
    simp only [gifExportPlan, List.mem_map] at hfr
    obtain ⟨i, _, rfl⟩ := hfr
    exact ⟨rfl, rfl⟩
  · intro fr hfr fr' hfr'
    simp only [gifExportPlan, List.mem_map] at hfr hfr'
    obtain ⟨i, _, rfl⟩ := hfr
    obtain ⟨j, _, rfl⟩ := hfr'
    exact ⟨rfl, rfl⟩

/-- Witness for C3 at duration 1 s and 4x4 source bounds: 20 frames,
repeat = 0. -/
theorem gifExportPlan_spec_witness :
    (((gifExportPlan ⟨0, 0, 4, 4⟩ none 1).frames.length : ℤ) = ⌈(1:ℚ) * 20⌉) ∧
    (gifExportPlan ⟨0, 0, 4, 4⟩ none 1).repeatCount = 0 :=
  ⟨(gifExportPlan_spec ⟨0, 0, 4, 4⟩ none 1 (by norm_num)).1,
   (gifExportPlan_spec ⟨0, 0, 4, 4⟩ none 1 (by norm_num)).2.1⟩

/-! ## C9: the single-frame GIF track time is NaN -/

/-- C9: when ceil(d * 20) = 1, the only GIF frame's track time, computed as
(0 / (totalFrames - 1)) * d, is NaN rather than a finite time; when
totalFrames ≥ 2 every assigned frame time is finite and lies in [0, d]. -/
theorem gifFrameTime_spec (d : ℚ) :
    (⌈d * 20⌉ = 1 → gifFrameTime ⌈d * 20⌉ 0 d = JSNum.nan) ∧
    (2 ≤ ⌈d * 20⌉ → ∀ i : ℕ, (i : ℤ) < ⌈d * 20⌉ →
      ∃ t : ℚ, gifFrameTime ⌈d * 20⌉ i d = JSNum.fin t ∧ 0 ≤ t ∧ t ≤ d) := by
  constructor
  · intro h1
    rw [h1]
    simp [gifFrameTime, jsDiv, JSNum.mulQ]
  · intro h2 i hi
    have hd : 0 < d := by
      have h1 : (1 : ℤ) < ⌈d * 20⌉ := by omega
      have h1' := Int.lt_ceil.1 h1
      push_cast at h1'
      nlinarith
    have hne : ((⌈d * 20⌉ : ℚ) - 1) ≠ 0 := by
      have : (2 : ℚ) ≤ (⌈d * 20⌉ : ℚ) := by exact_mod_cast h2
      linarith
    have hpos : (0 : ℚ) < (⌈d * 20⌉ : ℚ) - 1 := by
      have : (2 : ℚ) ≤ (⌈d * 20⌉ : ℚ) := by exact_mod_cast h2
      linarith
    refine ⟨(i : ℚ) / ((⌈d * 20⌉ : ℚ) - 1) * d, ?_, ?_, ?_⟩
    · simp [gifFrameTime, jsDiv, JSNum.mulQ, hne]
    · positivity
    · have hile : (i : ℚ) ≤ (⌈d * 20⌉ : ℚ) - 1 := by
        have : (i : ℤ) ≤ ⌈d * 20⌉ - 1 := by omega
        exact_mod_cast this
      have hq : (i : ℚ) / ((⌈d * 20⌉ : ℚ) - 1) ≤ 1 :=
        (div_le_one hpos).2 hile
      nlinarith

/-- Witness for C9: at d = 1/40 (ceil = 1) the single frame time is NaN;
at d = 1 (20 frames) frame 5's time is finite and lies in [0, 1]. -/
theorem gifFrameTime_spec_witness :
    gifFrameTime ⌈(1/40 : ℚ) * 20⌉ 0 (1/40) = JSNum.nan ∧
    ∃ t : ℚ, gifFrameTime ⌈(1 : ℚ) * 20⌉ 5 1 = JSNum.fin t ∧ 0 ≤ t ∧ t ≤ 1 :=
  ⟨(gifFrameTime_spec (1/40)).1 (by
      rw [show (1/40 : ℚ) * 20 = 1/2 by norm_num]
      norm_num [Int.ceil_eq_iff]),
   (gifFrameTime_spec 1).2
     (by rw [show (1 : ℚ) * 20 = 20 by norm_num]; norm_num)
     5 (by rw [show (1 : ℚ) * 20 = 20 by norm_num]; norm_num)⟩

/-! ## C1: export session guard restoration -/

/-- A paused session (timeScale already 0) with an active track. -/
def pausedApp : AppState :=
  { skel := { scaleX := 1, scaleY := 1, posX := 0, posY := 0
              hasTrack := true, trackTime := 2, timeScale := 0
              animStart := 0, animEnd := 1 }
    isPaused := true, isExporting := false }

/-- A callback that sets the skeleton's time scale to 5 and returns
normally. -/
def timeScaleTamperCb : SkelState → CbResult :=
  fun sk => { skel := { sk with timeScale := 5 }, throws := false }

/-- Counterexample to C1: when the session was already paused, the guard's
cleanup does not restore timeScale (it only resets it to 1 when the session
was running), so a callback that changes timeScale leaves it changed after
the call: starting from timeScale = 0, the post-call value is 5. -/
theorem withExportSetup_timeScale_not_restored :
    (withExportSetup timeScaleTamperCb pausedApp).1.skel.timeScale
      ≠ pausedApp.skel.timeScale := by
  simp [withExportSetup, exportEntrySkel, timeScaleTamperCb, pausedApp]

/-- C1 (amended): for every callback — including one that throws or
rejects — the guard restores the skeleton's scale and position exactly and
clears isExporting; trackTime is restored exactly provided the callback
leaves the track entry present; and timeScale equals its pre-call value
provided the callback does not itself change timeScale and the session
invariant holds that a non-paused session has timeScale = 1 (the cleanup
sets timeScale to 1 rather than to the captured original, and skips it
entirely when the session was paused). -/
theorem withExportSetup_restores (cb : SkelState → CbResult) (s : AppState)
    (hTrack : s.skel.hasTrack = true)
    (hTrack' : (cb (exportEntrySkel s)).skel.hasTrack = true)
    (hTS : s.isPaused = true →
      (cb (exportEntrySkel s)).skel.timeScale = s.skel.timeScale)
    (hInv : s.isPaused = false → s.skel.timeScale = 1) :
    (withExportSetup cb s).1.skel.scaleX = s.skel.scaleX ∧
    (withExportSetup cb s).1.skel.scaleY = s.skel.scaleY ∧
    (withExportSetup cb s).1.skel.posX = s.skel.posX ∧
    (withExportSetup cb s).1.skel.posY = s.skel.posY ∧
    (withExportSetup cb s).1.skel.trackTime = s.skel.trackTime ∧
    (withExportSetup cb s).1.skel.timeScale = s.skel.timeScale ∧
    (withExportSetup cb s).1.isExporting = false := by
  cases hp : s.isPaused with
  | true =>
    simp [withExportSetup, hp, hTrack, hTrack', hTS hp]
  | false =>
    simp [withExportSetup, hp, hTrack, hTrack', (hInv hp).symm]

/-- A callback that rescales, moves and rewinds the skeleton, then throws. -/
def exportDemoCb : SkelState → CbResult :=
  fun sk =>
    { skel :=
        { sk with
          scaleX := 99
          scaleY := 98
          posX := 7
          posY := (-7)
          trackTime := 1/2 }
      throws := true }

/-- A running (unpaused) session with an active track and timeScale 1. -/
def runningApp : AppState :=
  { skel := { scaleX := 1, scaleY := 1, posX := 0, posY := 0
              hasTrack := true, trackTime := 2, timeScale := 1
              animStart := 0, animEnd := 3 }
    isPaused := false, isExporting := false }

/-- Witness for the amended C1: a throwing callback that mutates scale,
position and track time still leaves them restored, with isExporting
cleared. -/
theorem withExportSetup_restores_witness :
    (withExportSetup exportDemoCb runningApp).1.skel.scaleX
        = runningApp.skel.scaleX ∧
    (withExportSetup exportDemoCb runningApp).1.skel.trackTime
        = runningApp.skel.trackTime ∧
    (withExportSetup exportDemoCb runningApp).1.skel.timeScale
        = runningApp.skel.timeScale ∧
    (withExportSetup exportDemoCb runningApp).1.isExporting = false := by
  have h := withExportSetup_restores exportDemoCb runningApp rfl
    (by simp [exportDemoCb, exportEntrySkel, runningApp])
    (fun h => Bool.noConfusion h) (fun _ => rfl)
  exact ⟨h.1, h.2.2.2.2.1, h.2.2.2.2.2.1, h.2.2.2.2.2.2⟩

/-- The guard restores scaleX for every callback and start state. -/
theorem withExportSetup_fst_scaleX (cb : SkelState → CbResult) (s : AppState) :
    (withExportSetup cb s).1.skel.scaleX = s.skel.scaleX := by
  simp [withExportSetup, apply_ite SkelState.scaleX]

/-- The guard restores scaleY for every callback and start state. -/
theorem withExportSetup_fst_scaleY (cb : SkelState → CbResult) (s : AppState) :
    (withExportSetup cb s).1.skel.scaleY = s.skel.scaleY := by
  simp [withExportSetup, apply_ite SkelState.scaleY]

/-- The guard restores posX for every callback and start state. -/
theorem withExportSetup_fst_posX (cb : SkelState → CbResult) (s : AppState) :
    (withExportSetup cb s).1.skel.posX = s.skel.posX := by
  simp [withExportSetup, apply_ite SkelState.posX]

/-- The guard restores posY for every callback and start state. -/
theorem withExportSetup_fst_posY (cb : SkelState → CbResult) (s : AppState) :
    (withExportSetup cb s).1.skel.posY = s.skel.posY := by
  simp [withExportSetup, apply_ite SkelState.posY]

/-- The guard clears isExporting on every exit path. -/
theorem withExportSetup_fst_isExporting (cb : SkelState → CbResult)
    (s : AppState) : (withExportSetup cb s).1.isExporting = false := rfl

/-- The guard propagates exactly the callback's thrown/rejected error. -/
theorem withExportSetup_snd (cb : SkelState → CbResult) (s : AppState) :
    (withExportSetup cb s).2 = (cb (exportEntrySkel s)).throws := rfl

/-! ## C2: surfacing of export errors to the caller -/

/-- An export body whose sampling/encoding work raises an exception. -/
def throwingBody : ExportBody := { effect := id, throws := true }

/-- A running session with an active track, used as the export start
state. -/
def baseApp : AppState :=
  { skel := { scaleX := 1, scaleY := 1, posX := 0, posY := 0
              hasTrack := true, trackTime := 0, timeScale := 1
              animStart := 0, animEnd := 2 }
    isPaused := false, isExporting := false }

/-- Counterexample to C2: an exception raised during screenshot or video
sampling/encoding is caught and only logged inside the respective export
function, so the caller observes a normally resolved call (no failure),
contrary to the claim that every export entry point surfaces the failure. -/
theorem screenshot_and_video_swallow_errors :
    throwingBody.throws = true ∧
    (takeScreenshot throwingBody baseApp).2 = false ∧
    (exportToVideo throwingBody baseApp).2 = false := by
  refine ⟨rfl, rfl, ?_⟩
  simp [exportToVideo, baseApp, withExportSetup, videoCallback]

/-- C2 (amended): only the GIF export surfaces a sampling/encoding
exception to its caller (rethrown through the guard after restoration
completes — the final state has scale/position restored and isExporting
cleared); the screenshot and video exports catch and log the exception,
and the caller observes a normally resolved call. -/
theorem export_error_policy (b : ExportBody) (s : AppState)
    (hThrow : b.throws = true) (hTrack : s.skel.hasTrack = true) :
    (exportToGif b s).2 = true ∧
    (takeScreenshot b s).2 = false ∧
    (exportToVideo b s).2 = false ∧
    (exportToGif b s).1.skel.scaleX = s.skel.scaleX ∧
    (exportToGif b s).1.skel.scaleY = s.skel.scaleY ∧
    (exportToGif b s).1.skel.posX = s.skel.posX ∧
    (exportToGif b s).1.skel.posY = s.skel.posY ∧
    (exportToGif b s).1.isExporting = false := by
  refine ⟨?_, rfl, ?_, ?_, ?_, ?_, ?_, ?_⟩
  · simp [exportToGif, hTrack, withExportSetup_snd, gifCallback, hThrow]
  · simp [exportToVideo, hTrack, withExportSetup_snd, videoCallback]
  · simp [exportToGif, hTrack, withExportSetup_fst_scaleX]
  · simp [exportToGif, hTrack, withExportSetup_fst_scaleY]
  · simp [exportToGif, hTrack, withExportSetup_fst_posX]
  · simp [exportToGif, hTrack, withExportSetup_fst_posY]
  · simp [exportToGif, hTrack, withExportSetup_fst_isExporting]

/-- Witness for the amended C2 at a concrete throwing body and start
state. -/
theorem export_error_policy_witness :
    (exportToGif throwingBody baseApp).2 = true ∧
    (takeScreenshot throwingBody baseApp).2 = false ∧
    (exportToGif throwingBody baseApp).1.skel.posX = baseApp.skel.posX ∧
    (exportToGif throwingBody baseApp).1.isExporting = false := by
  have h := export_error_policy throwingBody baseApp rfl rfl
  exact ⟨h.1, h.2.1, h.2.2.2.2.2.2.1, h.2.2.2.2.2.2.2⟩

/-! ## C4: dimension planner bounds -/

/-- Counterexample to C4: at sourceWidth 24, sourceHeight 20000 and
requestedHeight 1000 (all within the claim's ranges) the planner rounds
the ideal width 1.2 to 1, and the parity nudge then takes the odd width 1
down to 0: the output width is 0 (not positive) and sits 1.2 px from the
ideal width (outside the claimed ± 1 px). -/
theorem calculateExportDimensions_violates_claim :
    (0:ℚ) < 24 ∧ (0:ℚ) < 20000 ∧ (1:ℤ) ≤ 1000 ∧ (1000:ℤ) ≤ 2000 ∧
    calculateExportDimensions 24 20000 (some 1000) = (0, 1000) ∧
    ¬ 0 < (calculateExportDimensions 24 20000 (some 1000)).1 ∧
    1 < |(calculateExportDimensions 24 20000 (some 1000)).1
          - (calculateExportDimensions 24 20000 (some 1000)).2 * (24 / 20000)| := by
  have h : calculateExportDimensions 24 20000 (some 1000) = (0, 1000) := by
    norm_num [calculateExportDimensions, jsRound, jsEven, MAX_GIF_HEIGHT]
  refine ⟨by norm_num, by norm_num, by norm_num, by norm_num, h, ?_, ?_⟩
  · rw [h]; norm_num
  · rw [h]
    have e : ((0:ℚ), (1000:ℚ)).1 - ((0:ℚ), (1000:ℚ)).2 * (24 / 20000)
        = -(6/5) := by norm_num
    rw [e, abs_neg, abs_of_nonneg (by norm_num : (0:ℚ) ≤ 6/5)]
    norm_num

/-- C4 (amended): for all sourceWidth, sourceHeight > 0 and integer
requestedHeight in [1, 2000], the planner returns
outputHeight = min(requestedHeight, 1000), a positive integer, and an
integer outputWidth that is nonnegative (it can be 0 for extreme aspect
ratios) and lies within 1.5 px of outputHeight * sourceWidth/sourceHeight
(the parity nudge can push the rounded width up to 1.5 px from the ideal
width). -/
theorem calculateExportDimensions_spec (sw sh : ℚ) (t : ℤ)
    (hsw : 0 < sw) (hsh : 0 < sh) (ht1 : 1 ≤ t) (ht2 : t ≤ 2000) :
    (calculateExportDimensions sw sh (some (t : ℚ))).2 = min (t : ℚ) 1000 ∧
    0 < (calculateExportDimensions sw sh (some (t : ℚ))).2 ∧
    (∃ m : ℤ, (calculateExportDimensions sw sh (some (t : ℚ))).2 = (m : ℚ)
      ∧ 0 < m) ∧
    (∃ k : ℤ, (calculateExportDimensions sw sh (some (t : ℚ))).1 = (k : ℚ)
      ∧ 0 ≤ k) ∧
    |(calculateExportDimensions sw sh (some (t : ℚ))).1
      - (calculateExportDimensions sw sh (some (t : ℚ))).2 * (sw / sh)|
        ≤ 3/2 := by
  have htQ1 : (1 : ℚ) ≤ (t : ℚ) := by exact_mod_cast ht1
  have htQ : (t : ℚ) ≠ 0 := by linarith
  simp only [calculateExportDimensions, if_neg htQ, MAX_GIF_HEIGHT]
  set x : ℚ := ((t : ℚ) ⊓ 1000) * (sw / sh) with hxdef
  set w0 : ℤ := jsRound x with hw0def
  have hmin : (0 : ℚ) < (t : ℚ) ⊓ 1000 := lt_min (by linarith) (by norm_num)
  have hx : (0 : ℚ) < x := by rw [hxdef]; positivity
  have hb1 : (w0 : ℚ) ≤ x + 1/2 := by
    rw [hw0def, jsRound]; exact Int.floor_le _
  have hb2 : x + 1/2 < (w0 : ℚ) + 1 := by
    rw [hw0def, jsRound]; exact Int.lt_floor_add_one _
  have hw0nn : 0 ≤ w0 := by
    rw [hw0def, jsRound, Int.le_floor]
    push_cast
    linarith
  have habs : |(w0 : ℚ) - x| ≤ 1/2 := by
    rw [abs_le]; constructor <;> linarith
  refine ⟨trivial, hmin, ⟨min t 1000, by exact_mod_cast rfl, by omega⟩, ?_, ?_⟩
  · split_ifs with hcond hband
    · refine ⟨w0 - 1, rfl, ?_⟩
      have hodd := hcond.2
      have h1 := (abs_lt.1 hband).1
      have h2 := (abs_lt.1 hband).2
      omega
    · exact ⟨w0 + 1, rfl, by omega⟩
    · exact ⟨w0, rfl, hw0nn⟩
  · split_ifs with hcond hband
    · have hodd := hcond.2
      have h1 := (abs_lt.1 hband).1
      have h2 := (abs_lt.1 hband).2
      have hw1 : w0 = 1 := by omega
      have hw1Q : ((w0 : ℚ)) = 1 := by exact_mod_cast hw1
      rw [abs_le]
      push_cast
      constructor <;> linarith
    · rw [abs_le] at habs ⊢
      push_cast at habs ⊢
      constructor <;> linarith [habs.1, habs.2]
    · exact le_trans habs (by norm_num)

/-- Witness for the amended C4 at sourceWidth 3, sourceHeight 2,
requestedHeight 600. -/
theorem calculateExportDimensions_spec_witness :
    (calculateExportDimensions 3 2 (some ((600 : ℤ) : ℚ))).2
        = min ((600 : ℤ) : ℚ) 1000 ∧
    0 < (calculateExportDimensions 3 2 (some ((600 : ℤ) : ℚ))).2 ∧
    |(calculateExportDimensions 3 2 (some ((600 : ℤ) : ℚ))).1
      - (calculateExportDimensions 3 2 (some ((600 : ℤ) : ℚ))).2 * (3 / 2)|
        ≤ 3/2 := by
  have h := calculateExportDimensions_spec 3 2 600 (by norm_num) (by norm_num)
    (by norm_num) (by norm_num)
  exact ⟨h.1, h.2.1, h.2.2.2.2⟩

/-! ## C5: the parity nudge direction -/

/-- Counterexample to C5: at sourceWidth 10 (even), sourceHeight 10 and
requestedHeight 5 the computed width is 5 — odd and at no boundary — yet
the planner returns 6 = computed width + 1, not the claimed computed
width - 1 = 4. -/
theorem calculateExportDimensions_parity_counterexample :
    jsEven (10 : ℚ) = true ∧
    jsRound (min (5:ℚ) MAX_GIF_HEIGHT * (10 / 10)) = 5 ∧
    ((5:ℤ) % 2 ≠ 0) ∧
    calculateExportDimensions 10 10 (some 5) = (6, 5) ∧
    (calculateExportDimensions 10 10 (some 5)).1 ≠ ((5 - 1 : ℤ) : ℚ) := by
  refine ⟨by norm_num [jsEven], ?_, by norm_num, ?_, ?_⟩
  · norm_num [jsRound, MAX_GIF_HEIGHT]
  · norm_num [calculateExportDimensions, jsRound, jsEven, MAX_GIF_HEIGHT]
  · norm_num [calculateExportDimensions, jsRound, jsEven, MAX_GIF_HEIGHT]

/-- C5 (amended): when sourceWidth is even and the computed width w0 is
odd, the nudge direction is +1 for every w0 >= 3 (the -1 direction is taken
only when |w0 - 1| < 2, i.e. w0 = 1, where it yields output width 0). -/
theorem calculateExportDimensions_parity (sw sh t : ℚ) (ht : t ≠ 0)
    (hEven : jsEven sw = true)
    (hOdd : jsRound (min t MAX_GIF_HEIGHT * (sw / sh)) % 2 ≠ 0) :
    (3 ≤ jsRound (min t MAX_GIF_HEIGHT * (sw / sh)) →
      (calculateExportDimensions sw sh (some t)).1
        = ((jsRound (min t MAX_GIF_HEIGHT * (sw / sh)) + 1 : ℤ) : ℚ)) ∧
    (jsRound (min t MAX_GIF_HEIGHT * (sw / sh)) = 1 →
      (calculateExportDimensions sw sh (some t)).1 = 0) := by
  constructor
  · intro h3
    have hband : ¬ |jsRound (min t MAX_GIF_HEIGHT * (sw / sh)) - 1| < 2 := by
      rw [abs_lt]
      omega
    simp only [calculateExportDimensions, if_neg ht]
    rw [if_pos ⟨hEven, hOdd⟩, if_neg hband]
  · intro h1
    have hband : |jsRound (min t MAX_GIF_HEIGHT * (sw / sh)) - 1| < 2 := by
      rw [abs_lt]
      omega
    simp only [calculateExportDimensions, if_neg ht]
    rw [if_pos ⟨hEven, hOdd⟩, if_pos hband, h1]
    norm_num

/-- Witness for the amended C5: the +1 direction at (10, 10, 5) and the
width-0 case at (24, 20000, 1000). -/
theorem calculateExportDimensions_parity_witness :
    (calculateExportDimensions 10 10 (some 5)).1
      = ((jsRound (min (5:ℚ) MAX_GIF_HEIGHT * (10 / 10)) + 1 : ℤ) : ℚ) ∧
    (calculateExportDimensions 24 20000 (some 1000)).1 = 0 := by
  constructor
  · exact (calculateExportDimensions_parity 10 10 5 (by norm_num)
      (by norm_num [jsEven])
      (by norm_num [jsRound, MAX_GIF_HEIGHT])).1
      (by norm_num [jsRound, MAX_GIF_HEIGHT])
  · exact (calculateExportDimensions_parity 24 20000 1000 (by norm_num)
      (by norm_num [jsEven])
      (by norm_num [jsRound, MAX_GIF_HEIGHT])).2
      (by norm_num [jsRound, MAX_GIF_HEIGHT])

/-! ## C6: bounds sampler sample count and union property -/

/-- Any sampled pose's width fits inside the accumulated union width. -/
theorem foldl_bounds_width (l : List Bounds) (b : Bounds) (hb : b ∈ l) :
    b.width ≤ (l.foldl boundsStep ⟨⊤, ⊤, ⊥, ⊥⟩).maxRight.unbot' 0
              - (l.foldl boundsStep ⟨⊤, ⊤, ⊥, ⊥⟩).minX.untop' 0 := by
  have hmin : (l.foldl boundsStep ⟨⊤, ⊤, ⊥, ⊥⟩).minX ≤ (b.x : WithTop ℚ) := by
    rw [foldl_boundsStep_minX]
    exact foldl_min_le_mem
      (List.mem_map_of_mem (fun b => ((b.x : WithTop ℚ))) hb) ⊤
  have hmax : ((b.x + b.width : ℚ) : WithBot ℚ)
      ≤ (l.foldl boundsStep ⟨⊤, ⊤, ⊥, ⊥⟩).maxRight := by
    rw [foldl_boundsStep_maxRight]
    exact mem_le_foldl_max
      (List.mem_map_of_mem (fun b => (((b.x + b.width : ℚ) : WithBot ℚ))) hb) ⊥
  obtain ⟨m, hm, hmle⟩ := WithTop.le_coe_iff.1 hmin
  obtain ⟨M, hM, hMge⟩ := WithBot.coe_le_iff.1 hmax
  rw [hm, hM, WithTop.untop'_coe, WithBot.unbot'_coe]
  linarith

/-- Any sampled pose's height fits inside the accumulated union height. -/
theorem foldl_bounds_height (l : List Bounds) (b : Bounds) (hb : b ∈ l) :
    b.height ≤ (l.foldl boundsStep ⟨⊤, ⊤, ⊥, ⊥⟩).maxBottom.unbot' 0
              - (l.foldl boundsStep ⟨⊤, ⊤, ⊥, ⊥⟩).minY.untop' 0 := by
  have hmin : (l.foldl boundsStep ⟨⊤, ⊤, ⊥, ⊥⟩).minY ≤ (b.y : WithTop ℚ) := by
    rw [foldl_boundsStep_minY]
    exact foldl_min_le_mem
      (List.mem_map_of_mem (fun b => ((b.y : WithTop ℚ))) hb) ⊤
  have hmax : ((b.y + b.height : ℚ) : WithBot ℚ)
      ≤ (l.foldl boundsStep ⟨⊤, ⊤, ⊥, ⊥⟩).maxBottom := by
    rw [foldl_boundsStep_maxBottom]
    exact mem_le_foldl_max
      (List.mem_map_of_mem (fun b => (((b.y + b.height : ℚ) : WithBot ℚ))) hb) ⊥
  obtain ⟨m, hm, hmle⟩ := WithTop.le_coe_iff.1 hmin
  obtain ⟨M, hM, hMge⟩ := WithBot.coe_le_iff.1 hmax
  rw [hm, hM, WithTop.untop'_coe, WithBot.unbot'_coe]
  linarith

/-- C6: for a skeleton with an active track and duration d, the bounds
sampler evaluates exactly clamp(ceil(d * 10), 10, 30) + 1 sample poses,
a number always within [11, 31], and the returned bounds' width and height
dominate every sampled pose's width and height (union property). -/
theorem calculateMaxAnimationBounds_spec (dims : Bounds) (s : SkelState)
    (f : ℚ → Bounds) (h : s.hasTrack = true) :
    (((sampleTimes (s.animEnd - s.animStart)).length : ℤ)
        = min (max ⌈(s.animEnd - s.animStart) * 10⌉ 10) 30 + 1) ∧
    11 ≤ (sampleTimes (s.animEnd - s.animStart)).length ∧
    (sampleTimes (s.animEnd - s.animStart)).length ≤ 31 ∧
    ∀ t ∈ sampleTimes (s.animEnd - s.animStart),
      (f t).width ≤ (calculateMaxAnimationBounds dims s f).2.width ∧
      (f t).height ≤ (calculateMaxAnimationBounds dims s f).2.height := by
  have hf10 : 10 ≤ framesToSample (s.animEnd - s.animStart) :=
    le_min (le_max_right _ _) (by norm_num)
  have hf30 : framesToSample (s.animEnd - s.animStart) ≤ 30 := min_le_right _ _
  have hlen : (sampleTimes (s.animEnd - s.animStart)).length
      = (framesToSample (s.animEnd - s.animStart)).toNat + 1 := by
    simp only [sampleTimes, List.length_map, List.length_range]
  have hne : ¬ (s.hasTrack = false) := by simp [h]
  refine ⟨?_, ?_, ?_, ?_⟩
  · rw [hlen]
    have : (0:ℤ) ≤ framesToSample (s.animEnd - s.animStart) := by omega
    push_cast [Int.toNat_of_nonneg this]
    rw [framesToSample]
  · rw [hlen]; omega
  · rw [hlen]; omega
  · intro t ht
    constructor
    · simp only [calculateMaxAnimationBounds]
      rw [if_neg hne]
      exact foldl_bounds_width _ (f t) (List.mem_map_of_mem f ht)
    · simp only [calculateMaxAnimationBounds]
      rw [if_neg hne]
      exact foldl_bounds_height _ (f t) (List.mem_map_of_mem f ht)

/-- A skeleton with an active track playing a 1-second animation. -/
def demoSkel : SkelState :=
  { scaleX := 1, scaleY := 1, posX := 0, posY := 0
    hasTrack := true, trackTime := 0, timeScale := 1
    animStart := 0, animEnd := 1 }

/-- Witness for C6 at a 1-second animation: the sample count formula and
its lower bound. -/
theorem calculateMaxAnimationBounds_spec_witness :
    (((sampleTimes (demoSkel.animEnd - demoSkel.animStart)).length : ℤ)
        = min (max ⌈(demoSkel.animEnd - demoSkel.animStart) * 10⌉ 10) 30 + 1) ∧
    11 ≤ (sampleTimes (demoSkel.animEnd - demoSkel.animStart)).length := by
  have h := calculateMaxAnimationBounds_spec ⟨0, 0, 5, 5⟩ demoSkel
    (fun _ => ⟨0, 0, 1, 1⟩) rfl
  exact ⟨h.1, h.2.1⟩

/-! ## C8: the no-active-track fallback -/

/-- Bounds snapshot stored at initialization time
(originalDimensions.current, line 412). -/
def snapshotDims : Bounds := ⟨0, 0, 10, 10⟩

/-- A skeleton with no active track entry whose transform changed since
initialization. -/
def idleSkel : SkelState :=
  { scaleX := 2, scaleY := 2, posX := 5, posY := 5
    hasTrack := false, trackTime := 0, timeScale := 1
    animStart := 0, animEnd := 0 }

/-- The skeleton's pose bounds at call time: every pose now measures
20 x 20, twice the initialization-time snapshot. -/
def grownPoseBounds : ℚ → Bounds := fun _ => ⟨0, 0, 20, 20⟩

/-- Counterexample to C8: with no active track the sampler returns the
bounds snapshot captured at initialization, not the bounds of the
skeleton's present pose at call time — here the present pose measures
20 x 20 but the returned fallback is the stale 10 x 10 snapshot. -/
theorem calculateMaxAnimationBounds_stale_fallback :
    (calculateMaxAnimationBounds snapshotDims idleSkel grownPoseBounds).2
        = snapshotDims ∧
    grownPoseBounds idleSkel.trackTime ≠ snapshotDims := by
  constructor
  · simp [calculateMaxAnimationBounds, idleSkel]
  · simp [grownPoseBounds, snapshotDims]

/-- C8 (amended): with no active track entry the sampler returns the
initialization-time bounds snapshot (originalDimensions.current) unchanged
and leaves the skeleton state unmodified (first component equals the input
state). -/
theorem calculateMaxAnimationBounds_noTrack (dims : Bounds) (s : SkelState)
    (f : ℚ → Bounds) (h : s.hasTrack = false) :
    calculateMaxAnimationBounds dims s f = (s, dims) := by
  simp [calculateMaxAnimationBounds, h]

/-- Witness for the amended C8 at the concrete no-track skeleton. -/
theorem calculateMaxAnimationBounds_noTrack_witness :
    calculateMaxAnimationBounds snapshotDims idleSkel grownPoseBounds
      = (idleSkel, snapshotDims) :=
  calculateMaxAnimationBounds_noTrack snapshotDims idleSkel grownPoseBounds rfl

/-! ## C7: chroma-key pixels cleared, near-black pixels preserved -/

/-- C7: in the chroma/alpha post-processing, every pixel within the tight
chroma-key tolerance (r < 50, g > 240, b < 50) gets alpha forced to 0, and
every near-black pixel (luminance < 40, r < 30, b < 30) with positive
alpha keeps positive alpha — it is never deleted. -/
theorem chromaAlphaProcess_spec :
    (∀ p : Pixel, p.r < 50 → p.g > 240 → p.b < 50 →
      (chromaAlphaProcess p).a = 0) ∧
    (∀ p : Pixel, p.inRange → luminance p < 40 → p.r < 30 → p.b < 30 →
      0 < p.a → 0 < (chromaAlphaProcess p).a) := by
  constructor
  · intro p h1 h2 h3
    simp [chromaAlphaProcess, h1, h2, h3]
  · intro p hrange hlum hr hb ha
    have h0r : 0 ≤ p.r := hrange.1
    have h0b : 0 ≤ p.b := hrange.2.2.2.2.1
    have hg : ¬ (240 : ℚ) < p.g := by
      intro hg
      have : (40:ℚ) < luminance p := by
        rw [luminance, lt_div_iff₀ (by norm_num : (0:ℚ) < 1000)]
        linarith
      linarith
    unfold chromaAlphaProcess
    rw [if_neg (fun hc => hg hc.2.1)]
    split_ifs with c2 c3 c4
    · simpa using ha
    · simpa using ha
    · simpa using ha
    · exact ha

/-- Witness for C7: a chroma-key pixel (49, 241, 0, 200) ends with
alpha 0; a near-black pixel (20, 30, 20, 255) keeps positive alpha. -/
theorem chromaAlphaProcess_spec_witness :
    (chromaAlphaProcess ⟨49, 241, 0, 200⟩).a = 0 ∧
    0 < (chromaAlphaProcess ⟨20, 30, 20, 255⟩).a := by
  constructor
  · exact chromaAlphaProcess_spec.1 ⟨49, 241, 0, 200⟩ (by norm_num)
      (by norm_num) (by norm_num)
  · exact chromaAlphaProcess_spec.2 ⟨20, 30, 20, 255⟩
      (by norm_num [Pixel.inRange]) (by norm_num [luminance])
      (by norm_num) (by norm_num) (by norm_num)

end SpineThing
